import Mathlib

/-!
Verification of `observe/senders/base.py` (observeinc/observe-langchain).

This file shallowly embeds the data model and the operations of the
`ObserveSender` class and its module-level helpers (`merge`, `maybe_json`,
the clamped tunables, URL derivation, the delivery-worker step), and proves
the spec claims about them.

Modelling conventions:
  * Python dict values are modelled by the inductive `PyVal`; a dict is an
    insertion-ordered association list `List (String × PyVal)`.
  * Wall-clock times are modelled as exact rationals (seconds); Python float
    formatting is abstracted as exact rational rendering.
  * `json.dumps(obj, ensure_ascii=False, sort_keys=True)` is modelled by
    `dumps`, which raises (returns `.error`) exactly on non-serializable
    leaves, with the CPython error message.
  * Exceptions are modelled with `Except`; an attribute read on an object
    whose `__init__` returned before assigning it raises `AttributeError`,
    and a read of an unassigned local raises `UnboundLocalError`.
-/

set_option autoImplicit false

namespace Observe

/-- A Python value as it can appear in an enqueued record: JSON-representable
constructors plus `pobj`, an arbitrary object that `json.dumps` cannot
serialize (carrying its type name and its `repr` string). -/
inductive PyVal where
  | pnull : PyVal
  | pbool : Bool → PyVal
  | pint : Int → PyVal
  | pstr : String → PyVal
  | plist : List PyVal → PyVal
  | pdict : List (String × PyVal) → PyVal
  | pobj : String → String → PyVal

/-- A record (Python dict) as stored in the sender queue. -/
abbrev Rec := List (String × PyVal)

/-- Lowercase hex digit, as used by CPython in `\uXXXX` / `\xXX` escapes. -/
def hexDigitChar (n : Nat) : Char :=
  if n < 10 then Char.ofNat (48 + n) else Char.ofNat (87 + n)

/-- CPython `json` string escaping with `ensure_ascii=False`: escape the
double quote, backslash and control characters, pass everything else raw. -/
def jsonEscapeChar (c : Char) : String :=
  if c.toNat = 34 then "\\\""
  else if c.toNat = 92 then "\\\\"
  else if c.toNat = 10 then "\\n"
  else if c.toNat = 13 then "\\r"
  else if c.toNat = 9 then "\\t"
  else if c.toNat = 8 then "\\b"
  else if c.toNat = 12 then "\\f"
  else if c.toNat < 32 then
    "\\u00" ++ String.singleton (hexDigitChar (c.toNat / 16))
      ++ String.singleton (hexDigitChar (c.toNat % 16))
  else String.singleton c

/-- JSON string literal for `s`. -/
def jsonQuote (s : String) : String :=
  "\"" ++ String.join (s.toList.map jsonEscapeChar) ++ "\""

/-- Code-point lexicographic order on strings, as Python compares `str`. -/
def charListLE : List Char → List Char → Bool
  | [], _ => true
  | _ :: _, [] => false
  | a :: as, b :: bs =>
      if a.toNat < b.toNat then true
      else if b.toNat < a.toNat then false
      else charListLE as bs

/-- Key order used by `json.dumps(..., sort_keys=True)`. -/
def keyLE (a b : String × PyVal) : Bool := charListLE a.1.toList b.1.toList

/-- Stable sort of dict items by key (CPython `sorted(d.items())`). -/
def sortPairsKV (kvs : List (String × PyVal)) : List (String × PyVal) :=
  List.insertionSort (fun a b => keyLE a b) kvs

theorem sizeOf_orderedInsert (p : String × PyVal) (l : List (String × PyVal)) :
    sizeOf (List.orderedInsert (fun a b => keyLE a b) p l) = sizeOf (p :: l) := by
  induction l with
  | nil => rfl
  | cons q rest ih =>
    simp only [List.orderedInsert]
    by_cases h : keyLE p q = true
    · simp [h]
    · rw [if_neg h]
      simp only [List.cons.sizeOf_spec] at ih ⊢
      omega

theorem sizeOf_sortPairsKV (l : List (String × PyVal)) :
    sizeOf (sortPairsKV l) = sizeOf l := by
  induction l with
  | nil => rfl
  | cons p rest ih =>
    simp only [sortPairsKV, List.insertionSort] at *
    rw [sizeOf_orderedInsert]
    simp only [List.cons.sizeOf_spec]
    omega

mutual

/-- Model of `json.dumps(obj, ensure_ascii=False, sort_keys=True)`:
canonical serialization with sorted keys; raises (`.error`) with the CPython
message on a non-serializable value. -/
def dumps : PyVal → Except String String
  | .pnull => .ok "null"
  | .pbool b => .ok (if b then "true" else "false")
  | .pint n => .ok (toString n)
  | .pstr s => .ok (jsonQuote s)
  | .pobj t _ => .error ("Object of type " ++ t ++ " is not JSON serializable")
  | .plist xs =>
      match dumpsList xs with
      | .error e => .error e
      | .ok parts => .ok ("[" ++ String.intercalate ", " parts ++ "]")
  | .pdict kvs =>
      match dumpsPairs (sortPairsKV kvs) with
      | .error e => .error e
      | .ok parts => .ok ("\x7b" ++ String.intercalate ", " parts ++ "\x7d")
termination_by v => sizeOf v
decreasing_by
  all_goals (simp; try rw [sizeOf_sortPairsKV]; try omega)

/-- Serialize the elements of a JSON array in order; first failure wins. -/
def dumpsList : List PyVal → Except String (List String)
  | [] => .ok []
  | x :: xs =>
      match dumps x with
      | .error e => .error e
      | .ok s =>
          match dumpsList xs with
          | .error e => .error e
          | .ok rest => .ok (s :: rest)
termination_by l => sizeOf l
decreasing_by
  all_goals (simp; try omega)

/-- Serialize already-sorted dict items as `"key": value` fragments. -/
def dumpsPairs : List (String × PyVal) → Except String (List String)
  | [] => .ok []
  | p :: ps =>
      match dumps p.2 with
      | .error e => .error e
      | .ok s =>
          match dumpsPairs ps with
          | .error e => .error e
          | .ok rest => .ok ((jsonQuote p.1 ++ ": " ++ s) :: rest)
termination_by l => sizeOf l
decreasing_by
  all_goals (rcases p with ⟨k, v⟩; simp; try omega)

end

/-- CPython `repr` escaping of one character inside a string literal
delimited by quote character `q`. -/
def pyCharEscape (q : Char) (c : Char) : String :=
  if c.toNat = 92 then "\\\\"
  else if c = q then "\\" ++ String.singleton q
  else if c.toNat = 10 then "\\n"
  else if c.toNat = 13 then "\\r"
  else if c.toNat = 9 then "\\t"
  else if c.toNat < 32 || c.toNat = 127 then
    "\\x" ++ String.singleton (hexDigitChar (c.toNat / 16))
      ++ String.singleton (hexDigitChar (c.toNat % 16))
  else String.singleton c

/-- CPython `repr` of a string: single-quoted, switching to double quotes
when the string contains a single quote but no double quote. -/
def pyStrRepr (s : String) : String :=
  let hasSingle := s.toList.contains (Char.ofNat 39)
  let hasDouble := s.toList.contains (Char.ofNat 34)
  let q := if hasSingle && !hasDouble then Char.ofNat 34 else Char.ofNat 39
  String.singleton q ++ String.join (s.toList.map (pyCharEscape q)) ++ String.singleton q

mutual

/-- CPython `repr` of a `PyVal` (dict items in insertion order). -/
def pyRepr : PyVal → String
  | .pnull => "None"
  | .pbool b => if b then "True" else "False"
  | .pint n => toString n
  | .pstr s => pyStrRepr s
  | .plist xs => "[" ++ String.intercalate ", " (pyReprList xs) ++ "]"
  | .pdict kvs => "\x7b" ++ String.intercalate ", " (pyReprPairs kvs) ++ "\x7d"
  | .pobj _ r => r
termination_by v => sizeOf v
decreasing_by
  all_goals (simp; try omega)

def pyReprList : List PyVal → List String
  | [] => []
  | x :: xs => pyRepr x :: pyReprList xs
termination_by l => sizeOf l
decreasing_by
  all_goals (simp; try omega)

def pyReprPairs : List (String × PyVal) → List String
  | [] => []
  | p :: ps => (pyStrRepr p.1 ++ ": " ++ pyRepr p.2) :: pyReprPairs ps
termination_by l => sizeOf l
decreasing_by
  all_goals (rcases p with ⟨k, v⟩; simp; try omega)

end

/-- CPython `str`: the string itself for strings, `repr` otherwise. -/
def pyStr : PyVal → String
  | .pstr s => s
  | v => pyRepr v

/-- Key membership test for an insertion-ordered dict (`k in dst`). -/
def containsKey (d : Rec) (k : String) : Bool := d.any (fun p => p.1 == k)

/-- Lookup in an insertion-ordered dict (first binding wins). -/
def lookupRec (d : Rec) (k : String) : Option PyVal :=
  (d.find? (fun p => p.1 == k)).map (fun p => p.2)

/-- One pass of `merge`: `for k, v in src.items(): if not k in dst: dst[k] = v`
(new keys are appended at the end, preserving insertion order). -/
def mergeInto (dst src : Rec) : Rec :=
  src.foldl (fun d p => if containsKey d p.1 then d else d ++ [p]) dst

/-- `merge(*srcs)` from `base.py`: fold the sources left to right into an
initially empty dict; an earlier source wins on key conflicts. -/
def merge (srcs : List Rec) : Rec := srcs.foldl mergeInto []

/-- The module-global `warned_unsupported` set, modelled as the list of
error messages in insertion order. -/
abbrev WarnedSet := List String

/-- Model of `maybe_json`: serialize `obj`; on failure substitute the
fallback record carrying `str(obj)` and `str(e)`, warning once per distinct
error message. The result carries the returned line, the updated
`warned_unsupported` set, and the warning printed by this call (if any);
an `.error` result would model an exception escaping `maybe_json`. -/
def maybe_json (warned : WarnedSet) (obj : PyVal) :
    Except String (String × WarnedSet × Option String) :=
  match dumps obj with
  | .ok s => .ok (s, warned, none)
  | .error e =>
      let warned2 := if warned.contains e then warned else warned ++ [e]
      let printed : Option String := if warned.contains e then none else some e
      match dumps (.pdict [("_unsupported", .pstr (pyStr obj)), ("error", .pstr e)]) with
      | .ok s => .ok (s, warned2, printed)
      | .error e2 => .error e2

/-- The document `maybe_json` substitutes for a non-serializable record:
the string form of the record under `_unsupported` and the error description
under `error`, serialized with sorted keys. -/
def fallbackDoc (obj : PyVal) (e : String) : String :=
  "\x7b\"_unsupported\": " ++ jsonQuote (pyStr obj) ++ ", \"error\": " ++ jsonQuote e ++ "\x7d"

/-- The line that `maybe_json` returns for a queued record, independent of
the warned-set state. -/
def encodeRecord (r : Rec) : String :=
  match dumps (.pdict r) with
  | .ok s => s
  | .error e => fallbackDoc (.pdict r) e

/-- `[maybe_json(x) for x in sendq]`, threading the `warned_unsupported`
state left to right. -/
def encodeAll (warned : WarnedSet) : List Rec → List String × WarnedSet
  | [] => ([], warned)
  | r :: rest =>
      match maybe_json warned (.pdict r) with
      | .ok (s, w2, _) =>
          let out := encodeAll w2 rest
          (s :: out.1, out.2)
      | .error _ => ([], warned)

/-- A whole-process-run harness for `maybe_json`: encode `objs` in order,
threading the `warned_unsupported` set, and collect the warnings printed. -/
def maybeJsonRun (warned : WarnedSet) : List PyVal → WarnedSet × List String
  | [] => (warned, [])
  | obj :: rest =>
      match maybe_json warned obj with
      | .ok (_, w2, printed) =>
          let out := maybeJsonRun w2 rest
          (out.1, (match printed with | some e => [e] | none => []) ++ out.2)
      | .error _ => (warned, [])

/-!  Module-level tunables (lines 16-21 of `base.py`).  The environment
override, once parsed as a number, is modelled as an exact rational
(respectively integer); the clamping uses only order operations, which are
exact on floats, so the rational model is faithful for well-formed
overrides. -/

/-- `KEEPALIVE_INTERVAL = max(1.0, min(float(env), 300.0))`. -/
def KEEPALIVE_INTERVAL (env : ℚ) : ℚ := max 1 (min env 300)

/-- `BATCH_SEND_DELAY = max(1.0, min(float(env), KEEPALIVE_INTERVAL))`. -/
def BATCH_SEND_DELAY (env keepalive : ℚ) : ℚ := max 1 (min env keepalive)

/-- `MAX_BACKLOG_SAVE = min(1024*1024, max(0, int(env)))`. -/
def MAX_BACKLOG_SAVE (env : ℤ) : ℤ := min (1024 * 1024) (max 0 env)

/-!  The `ObserveSender` object.  Constructor arguments and environment
fallbacks are pre-resolved: each config field holds the value of
`arg or os.getenv(...)` (`none` models Python `None`). -/

/-- A Python exception, as far as the sender can raise one. -/
inductive PyErr where
  | attributeError : String → PyErr
  | unboundLocalError : String → PyErr
  | exception : String → PyErr

/-- Python truthiness of an optional string (`None` and `""` are falsy). -/
def truthyOS : Option String → Bool
  | none => false
  | some s => !s.isEmpty

/-- The attributes assigned unconditionally at the top of `__init__`
(lines 71-76). -/
structure SenderConfig where
  host : Option String
  customerid : Option String
  authtoken : Option String
  metadata_key : Option String
  accept_no_config : Bool
  log_sends : Bool

/-- `_config_complete`: `self.host and self.customerid and self.authtoken`. -/
def configComplete (cfg : SenderConfig) : Bool :=
  truthyOS cfg.host && truthyOS cfg.customerid && truthyOS cfg.authtoken

/-- Strip all leading `/` characters (`path.lstrip("/")`). -/
def lstripSlashes (s : String) : String :=
  String.mk (s.toList.dropWhile (fun c => c == '/'))

/-- Strip all trailing `/` characters (`host.rstrip("/")`). -/
def rstripSlashes (s : String) : String :=
  String.mk ((s.toList.reverse.dropWhile (fun c => c == '/')).reverse)

/-- `_derive_url` (lines 132-140): `None` when the configuration is
incomplete; otherwise the collector URL built from the host, the customer
id and the (default or supplied) path segment. -/
def deriveUrl (cfg : SenderConfig) (path : Option String) : Option String :=
  if !configComplete cfg then none
  else
    let h := cfg.host.getD ""
    let c := cfg.customerid.getD ""
    let url_path :=
      match path with
      | some p => if !p.isEmpty then "/v1/http/" ++ lstripSlashes p else "/v1/http/python-sender"
      | none => "/v1/http/python-sender"
    if h.toList.contains '/' then some (rstripSlashes h ++ url_path)
    else some ("https://" ++ c ++ ".collect." ++ h ++ url_path)

/-- `_raise_config_missing` message fields, in source order. -/
def missingConfig (cfg : SenderConfig) : List String :=
  (if truthyOS cfg.host then [] else ["OBSERVE_HOST"])
    ++ (if truthyOS cfg.customerid then [] else ["OBSERVE_CUSTOMERID"])
    ++ (if truthyOS cfg.authtoken then [] else ["OBSERVE_AUTHTOKEN"])

/-- Ambient process facts consumed by `__init__` / `_gather_metadata`. -/
structure InitEnv where
  envHostname : Option String
  socketHostname : String
  envUser : Option String
  pid : Int
  uuid : String
  now : ℚ

/-- `_gather_metadata` (lines 145-154). -/
def gatherMetadata (env : InitEnv) : Rec :=
  [("hostname", .pstr (match env.envHostname with
      | some hn => if hn.isEmpty then env.socketHostname else hn
      | none => env.socketHostname)),
   ("user", match env.envUser with
      | some u => .pstr u
      | none => .pnull),
   ("pid", .pint env.pid),
   ("uuid", .pstr env.uuid)]

/-- The attributes assigned only when the configuration is complete
(lines 82-89).  `sending = none` models `self.sending = None` after
`close()`; an unassigned attribute is modelled by the `noconfig`
constructor of `Sender` instead. -/
structure SenderLive where
  url : String
  metadata : Rec
  queue : List Rec
  last_send : ℚ
  sending : Option Unit

/-- An `ObserveSender` object in one of its two reachable attribute
shapes: `noconfig` is the early return of `__init__` (line 80), before
`self.cond`, `self.queue`, `self.sending` and friends are ever assigned. -/
inductive Sender where
  | noconfig : SenderConfig → Sender
  | full : SenderConfig → SenderLive → Sender

/-- `__init__` (lines 70-89).  Raises on incomplete configuration unless
`accept_no_config`; otherwise starts with an empty queue, fresh metadata
and a running worker. -/
def initSender (cfg : SenderConfig) (path : Option String) (env : InitEnv) :
    Except PyErr Sender :=
  match deriveUrl cfg path with
  | none =>
      if cfg.accept_no_config then .ok (.noconfig cfg)
      else .error (.exception ("ObserveTracer is missing configuration: "
        ++ String.intercalate ", " (missingConfig cfg)))
  | some u =>
      .ok (.full cfg
        { url := u, metadata := gatherMetadata env, queue := [],
          last_send := env.now, sending := some () })

/-- The timestamp stamped by `enqueue`: `str(int(time.time()*1e9))`. -/
def enqueueTimestamp (now : ℚ) : String := toString (Int.floor (now * 1000000000))

/-- `enqueue` (lines 91-108).  On a `noconfig` object, `with self.cond`
reads the never-assigned attribute `cond` and raises `AttributeError`.
On a closed sender it silently returns in tolerant mode and raises
otherwise.  On a running sender it appends the enriched record. -/
def enqueue (s : Sender) (data : Rec) (now : ℚ) : Except PyErr Sender :=
  match s with
  | .noconfig _ => .error (.attributeError "cond")
  | .full cfg live =>
      match live.sending with
      | none =>
          if cfg.accept_no_config then .ok (.full cfg live)
          else .error (.exception "attempt to enqueue observations when already closed")
      | some _ =>
          let timestamp := enqueueTimestamp now
          match cfg.metadata_key with
          | some mk =>
              if !mk.isEmpty then
                .ok (.full cfg { live with queue := live.queue ++
                  [merge [data, [(mk, .pdict (merge [live.metadata,
                    [("timestamp", .pstr timestamp)]]))]]] })
              else
                .ok (.full cfg { live with queue := live.queue ++ [data] })
          | none =>
              .ok (.full cfg { live with queue := live.queue ++
                [merge [data, live.metadata, [("timestamp", .pstr timestamp)]]] })

/-- `close` (lines 110-120).  On a `noconfig` object, `with self.cond`
raises `AttributeError`.  On a running sender it clears `sending` and joins
the worker.  On an already-closed sender the local `thr` is never assigned
and `if thr:` raises `UnboundLocalError`. -/
def close (s : Sender) : Except PyErr Sender :=
  match s with
  | .noconfig _ => .error (.attributeError "cond")
  | .full cfg live =>
      match live.sending with
      | some _ => .ok (.full cfg { live with sending := none })
      | none => .error (.unboundLocalError "thr")

/-!  The delivery worker (`_send_thread` loop body, lines 156-216).  One
iteration of `_maybe_send_one` is modelled as a function of the shared
state plus this iteration's environment: the wall clock `now` (and `now2`,
the second `time.time()` call after a successful post), whether the HTTP
POST succeeds (`netOk`), the records enqueued while the lock was released
during the POST (`arrivals`, already enriched by `enqueue`), and whether
`close()` ran during the POST (`closeDuring`). -/

/-- `len(body)` for a batch: UTF-8 byte length of the newline-joined
`maybe_json` lines plus the trailing newline. -/
def bodyBytes (sendq : List Rec) : Nat :=
  (String.intercalate "\n" (sendq.map encodeRecord) ++ "\n").utf8ByteSize

/-- `_do_post` (lines 187-216).  Swaps the queue out, posts, and on failure
requeues the (possibly truncated) batch in front of the records that
arrived during the call.  Returns the new live state, the new
`warned_unsupported` set, and the success flag. -/
def doPost (live : SenderLive) (warned : WarnedSet) (cap : ℤ) (netOk : Bool)
    (arrivals : List Rec) (closeDuring : Bool) : SenderLive × WarnedSet × Bool :=
  let sendq := live.queue
  let enc := encodeAll warned sendq
  let body := String.intercalate "\n" enc.1 ++ "\n"
  let l : ℤ := body.utf8ByteSize
  let sending2 : Option Unit := if closeDuring then none else live.sending
  if netOk then
    ({ live with queue := arrivals, sending := sending2 }, enc.2, true)
  else
    let sendq2 := if l > cap then sendq.drop (sendq.length / 2 + 1) else sendq
    ({ live with queue := sendq2 ++ arrivals, sending := sending2 }, enc.2, false)

/-- `_is_time_for_keepalive` (lines 179-180). -/
def isTimeForKeepalive (queue : List Rec) (timeSince keepalive : ℚ) : Bool :=
  queue.isEmpty && decide (timeSince > keepalive)

/-- `_is_time_to_post` (lines 182-183). -/
def isTimeToPost (queue : List Rec) (sending : Option Unit)
    (timeSince batchDelay : ℚ) : Bool :=
  !queue.isEmpty && (sending.isNone || decide (timeSince > batchDelay))

/-- The synthetic keepalive record `{'keepalive': str(now*1000000000)}`;
Python float rendering is abstracted as exact rational rendering. -/
def keepaliveRecord (now : ℚ) : Rec :=
  [("keepalive", .pstr (toString (now * 1000000000)))]

/-- Lines 164-167 of `_maybe_send_one`: append a keepalive when the queue
is empty and the keepalive interval has elapsed. -/
def keepaliveStep (live : SenderLive) (now keepalive : ℚ) : SenderLive :=
  if isTimeForKeepalive live.queue (now - live.last_send) keepalive then
    { live with queue := live.queue ++ [keepaliveRecord now] }
  else live

/-- `return self.sending or self.queue` (line 177). -/
def keepGoing (live : SenderLive) : Bool :=
  live.sending.isSome || !live.queue.isEmpty

/-- `_maybe_send_one` (lines 161-177): one worker iteration, returning the
new state, the new `warned_unsupported` set, and the continuation flag. -/
def maybeSendOne (live : SenderLive) (warned : WarnedSet)
    (keepalive batchDelay : ℚ) (cap : ℤ) (now now2 : ℚ) (netOk : Bool)
    (arrivals : List Rec) (closeDuring : Bool) :
    SenderLive × WarnedSet × Bool :=
  let timeSince := now - live.last_send
  let live1 := keepaliveStep live now keepalive
  if isTimeToPost live1.queue live1.sending timeSince batchDelay then
    let res := doPost live1 warned cap netOk arrivals closeDuring
    if res.2.2 then
      let live3 := { res.1 with last_send := now2 }
      (live3, res.2.1, keepGoing live3)
    else if res.1.sending.isNone then (res.1, res.2.1, false)
    else (res.1, res.2.1, keepGoing res.1)
  else (live1, warned, keepGoing live1)

/-- The queue contents that the spec predicts after a failed flush: the
batch, truncated by the oldest half-plus-one when its serialized size
exceeds the cap, ahead of the records that arrived during the call. -/
def requeueAfterFailure (sendq : List Rec) (cap : ℤ) (arrivals : List Rec) :
    List Rec :=
  (if (bodyBytes sendq : ℤ) > cap then sendq.drop (sendq.length / 2 + 1) else sendq)
    ++ arrivals

/-- The tolerant unconfigured sender of C1: every config source missing,
`accept_no_config=True`. -/
def noCfg : SenderConfig :=
  { host := none, customerid := none, authtoken := none, metadata_key := none,
    accept_no_config := true, log_sends := false }

/-- A fixed ambient environment for concrete senders. -/
def env0 : InitEnv :=
  { envHostname := none, socketHostname := "host0", envUser := none,
    pid := 7, uuid := "u-0", now := 0 }

/-- The fully configured sender used for C2. -/
def okCfg : SenderConfig :=
  { host := some "eu1.observeinc.com", customerid := some "101",
    authtoken := some "tok", metadata_key := none,
    accept_no_config := false, log_sends := false }

/-- The live state `__init__` produces for `okCfg` under `env0`. -/
def liveAfterInit : SenderLive :=
  { url := "https://101.collect.eu1.observeinc.com/v1/http/python-sender",
    metadata := gatherMetadata env0, queue := [], last_send := 0,
    sending := some () }

/-- A small one-field record whose line serializes to 8 bytes. -/
def rSmall : Rec := [("a", .pint 1)]

/-- A one-field record whose line alone serializes to 27 bytes. -/
def rBig : Rec := [("kkkkkkkkkkkkkkkkkkkk", .pint 1)]

/-- A live sender whose queued batch serializes to 46 bytes against a
16-byte backlog cap (`OBSERVE_MAX_BACKLOG_SAVE=16`). -/
def liveCex : SenderLive :=
  { url := "u", metadata := [], queue := [rSmall, rSmall, rBig],
    last_send := 0, sending := some () }

theorem dumps_two_str_dict (a b : String) :
    dumps (.pdict [("_unsupported", .pstr a), ("error", .pstr b)]) =
      .ok ("\x7b\"_unsupported\": " ++ jsonQuote a ++ ", \"error\": " ++ jsonQuote b ++ "\x7d") := by
  have hle : keyLE ("_unsupported", PyVal.pstr a) ("error", PyVal.pstr b) = true := by
    simp only [keyLE]
    decide
  have hq1 : jsonQuote "_unsupported" = "\"_unsupported\"" := by decide
  have hq2 : jsonQuote "error" = "\"error\"" := by decide
  simp [dumps, sortPairsKV, List.insertionSort, List.orderedInsert, hle, dumpsPairs,
    String.intercalate, String.intercalate.go, hq1, hq2]
  apply String.ext
  simp [String.data_append, List.append_assoc]

theorem maybe_json_eq (warned : WarnedSet) (obj : PyVal) :
    maybe_json warned obj = .ok (match dumps obj with
      | .ok s => (s, warned, none)
      | .error e => (fallbackDoc obj e,
          if warned.contains e then warned else warned ++ [e],
          if warned.contains e then none else some e)) := by
  unfold maybe_json
  cases h : dumps obj with
  | ok s => rfl
  | error e => simp [dumps_two_str_dict, fallbackDoc]

theorem encodeAll_fst (warned : WarnedSet) (q : List Rec) :
    (encodeAll warned q).1 = q.map encodeRecord := by
  induction q generalizing warned with
  | nil => rfl
  | cons r rest ih =>
    rw [encodeAll, maybe_json_eq]
    cases h : dumps (.pdict r) with
    | ok s => simp [encodeRecord, h, ih]
    | error e => simp [encodeRecord, h, ih]

theorem containsKey_nil (k : String) : containsKey [] k = false := rfl

theorem containsKey_cons (p : String × PyVal) (d : Rec) (k : String) :
    containsKey (p :: d) k = ((p.1 == k) || containsKey d k) := by
  simp [containsKey]

theorem containsKey_append (d l : Rec) (k : String) :
    containsKey (d ++ l) k = (containsKey d k || containsKey l k) := by
  simp [containsKey, List.any_append]

theorem lookupRec_eq_none_of_not_contains (d : Rec) (k : String)
    (h : containsKey d k = false) : lookupRec d k = none := by
  induction d with
  | nil => rfl
  | cons p rest ih =>
    rw [containsKey_cons] at h
    have h1 : (p.1 == k) = false := by
      cases hh : (p.1 == k) <;> simp [hh] at h ⊢
    simp only [lookupRec, List.find?] at ih ⊢
    rw [h1]
    exact ih (by cases hc : containsKey rest k <;> simp [hc, h1] at h ⊢)

theorem lookupRec_append (d l : Rec) (k : String) :
    lookupRec (d ++ l) k =
      if containsKey d k then lookupRec d k else lookupRec l k := by
  induction d with
  | nil => simp [containsKey_nil, lookupRec]
  | cons p rest ih =>
    rw [containsKey_cons]
    cases hh : (p.1 == k) with
    | true =>
      simp [List.cons_append, lookupRec, List.find?, hh, Bool.true_or]
    | false =>
      simp only [List.cons_append, lookupRec, List.find?, hh, Bool.false_or]
      exact ih

theorem mergeInto_cons (dst : Rec) (p : String × PyVal) (ps : Rec) :
    mergeInto dst (p :: ps) =
      mergeInto (if containsKey dst p.1 then dst else dst ++ [p]) ps := by
  simp only [mergeInto, List.foldl_cons]

theorem contains_mergeInto (dst src : Rec) (k : String) :
    containsKey (mergeInto dst src) k = (containsKey dst k || containsKey src k) := by
  induction src generalizing dst with
  | nil => simp [mergeInto, containsKey_nil]
  | cons p ps ih =>
    rw [mergeInto_cons]
    by_cases h : containsKey dst p.1 = true
    · rw [if_pos h, ih, containsKey_cons]
      by_cases hh : p.1 = k
      · subst hh
        simp [h]
      · rw [beq_eq_false_iff_ne.mpr hh]
        simp
    · rw [if_neg h, ih, containsKey_append, containsKey_cons, containsKey_cons,
        containsKey_nil]
      cases hh : (p.1 == k) <;> cases hc : containsKey dst k <;>
        cases hs : containsKey ps k <;> simp [hh, hc, hs]

theorem lookup_mergeInto (dst src : Rec) (k : String) :
    lookupRec (mergeInto dst src) k =
      if containsKey dst k then lookupRec dst k else lookupRec src k := by
  induction src generalizing dst with
  | nil =>
    simp only [mergeInto, List.foldl_nil]
    by_cases h : containsKey dst k = true
    · rw [if_pos h]
    · rw [if_neg h]
      exact lookupRec_eq_none_of_not_contains dst k (by simpa using h)
  | cons p ps ih =>
    rw [mergeInto_cons]
    by_cases h : containsKey dst p.1 = true
    · rw [if_pos h, ih]
      by_cases hk : containsKey dst k = true
      · rw [if_pos hk, if_pos hk]
      · rw [if_neg hk, if_neg hk]
        have hh : (p.1 == k) = false := by
          refine beq_eq_false_iff_ne.mpr (fun he => ?_)
          exact hk (he ▸ h)
        simp [lookupRec, List.find?, hh]
    · rw [if_neg h, ih]
      by_cases hk : containsKey dst k = true
      · rw [if_pos (by simp [containsKey_append, hk]), if_pos hk, lookupRec_append,
          if_pos hk]
      · have hk2 : containsKey dst k = false := by simpa using hk
        cases hh : (p.1 == k) with
        | true =>
          rw [if_pos (by simp [containsKey_append, containsKey_cons, hh]), if_neg hk,
            lookupRec_append, if_neg hk]
          simp [lookupRec, List.find?, hh]
        | false =>
          rw [if_neg (by simp [containsKey_append, containsKey_cons, containsKey_nil,
            hk2, hh]), if_neg hk]
          simp [lookupRec, List.find?, hh]

theorem doPost_queue_on_failure (live : SenderLive) (warned : WarnedSet)
    (cap : ℤ) (arrivals : List Rec) (closeDuring : Bool) :
    (doPost live warned cap false arrivals closeDuring).1.queue =
      requeueAfterFailure live.queue cap arrivals := by
  have hb : (String.intercalate "\n" (encodeAll warned live.queue).1 ++ "\n").utf8ByteSize
      = bodyBytes live.queue := by
    rw [encodeAll_fst, bodyBytes]
  simp only [doPost, requeueAfterFailure, if_neg (by simp : ¬ false = true), hb]

/-!  Claim theorems. -/

/-- Claim C10: for every well-formed numeric environment override, the effective
tunables are clamped at module load: the keepalive interval lies in
[1, 300] seconds, the batch send delay lies in [1, keepalive interval]
seconds, and the maximum backlog save lies in [0, 1048576] bytes. -/
theorem tunables_always_clamped (ke be : ℚ) (me : ℤ) :
    1 ≤ KEEPALIVE_INTERVAL ke ∧ KEEPALIVE_INTERVAL ke ≤ 300 ∧
    1 ≤ BATCH_SEND_DELAY be (KEEPALIVE_INTERVAL ke) ∧
    BATCH_SEND_DELAY be (KEEPALIVE_INTERVAL ke) ≤ KEEPALIVE_INTERVAL ke ∧
    0 ≤ MAX_BACKLOG_SAVE me ∧ MAX_BACKLOG_SAVE me ≤ 1048576 := by
  unfold KEEPALIVE_INTERVAL BATCH_SEND_DELAY MAX_BACKLOG_SAVE
  refine ⟨le_max_left _ _, max_le (by norm_num) (min_le_right _ _),
    le_max_left _ _, max_le (le_max_left _ _) (min_le_right _ _),
    le_min (by norm_num) (le_max_left _ _),
    le_trans (min_le_left _ _) (by norm_num)⟩

theorem isEmpty_false_of_ne (s : String) (h : s ≠ "") : s.isEmpty = false := by
  cases he : s.isEmpty
  · rfl
  · exact absurd ((String.isEmpty_iff s).mp he) h

/-- Claim C8: with a complete configuration, the derived URL is
`https://{customerid}.collect.{host}/v1/http/{path}` (default path segment
when no path is supplied, leading slashes stripped from a supplied path)
when the host contains no slash, and the host (trailing slashes stripped)
with the path segment appended verbatim when it does. -/
theorem derive_url_forms (h c a : String) (mk : Option String)
    (anc ls : Bool) (p : Option String)
    (hh : h ≠ "") (hc : c ≠ "") (ha : a ≠ "") :
    deriveUrl ⟨some h, some c, some a, mk, anc, ls⟩ p =
      some (
        let seg := match p with
          | none => "/v1/http/python-sender"
          | some q => if q = "" then "/v1/http/python-sender"
              else "/v1/http/" ++ lstripSlashes q
        if h.toList.contains '/' then rstripSlashes h ++ seg
        else "https://" ++ c ++ ".collect." ++ h ++ seg) := by
  have hcc : configComplete ⟨some h, some c, some a, mk, anc, ls⟩ = true := by
    simp [configComplete, truthyOS, isEmpty_false_of_ne h hh,
      isEmpty_false_of_ne c hc, isEmpty_false_of_ne a ha]
  simp only [deriveUrl, hcc, Bool.not_true, Bool.false_eq_true, if_false,
    Option.getD_some]
  cases p with
  | none =>
    by_cases hcont : '/' ∈ h.data <;> simp [hcont]
  | some q =>
    by_cases hq : q = ""
    · subst hq
      have he : ("" : String).isEmpty = true := by decide
      by_cases hcont : '/' ∈ h.data <;> simp [hcont, he]
    · have hqe : q.isEmpty = false := isEmpty_false_of_ne q hq
      by_cases hcont : '/' ∈ h.data <;> simp [hcont, hqe, hq]

/-- Witness for C8 at a concrete complete configuration. -/
theorem derive_url_forms_witness :
    ("eu1.observeinc.com" : String) ≠ "" ∧ ("101" : String) ≠ "" ∧
      ("tok" : String) ≠ "" ∧
      deriveUrl ⟨some "eu1.observeinc.com", some "101", some "tok", none, false, false⟩
          (some "/sub") =
        some "https://101.collect.eu1.observeinc.com/v1/http/sub" :=
  ⟨by decide, by decide, by decide,
    (derive_url_forms "eu1.observeinc.com" "101" "tok" none false false (some "/sub")
      (by decide) (by decide) (by decide)).trans (by decide)⟩

/-- Claim C1 (against the claim, which says enqueue and close succeed as no-ops):
construction does succeed in tolerant mode with missing configuration, but
the early return of `__init__` leaves `self.cond` unassigned, so both
`enqueue` and `close` then raise `AttributeError` instead of no-opping. -/
theorem tolerant_noconfig_enqueue_close_raise :
    initSender noCfg none env0 = .ok (.noconfig noCfg) ∧
    enqueue (.noconfig noCfg) [] 0 = .error (.attributeError "cond") ∧
    close (.noconfig noCfg) = .error (.attributeError "cond") :=
  ⟨rfl, rfl, rfl⟩

/-- Claim C2 (against the claim, which says `close()` is idempotent): the first
`close()` succeeds, but a second `close()` on the same sender raises
`UnboundLocalError` because the local `thr` is only assigned under
`if self.sending:`. -/
theorem close_second_call_raises :
    initSender okCfg none env0 = .ok (.full okCfg liveAfterInit) ∧
    close (.full okCfg liveAfterInit) =
      .ok (.full okCfg { liveAfterInit with sending := none }) ∧
    close (.full okCfg { liveAfterInit with sending := none }) =
      .error (.unboundLocalError "thr") :=
  ⟨rfl, rfl, rfl⟩

/-- Claim C4: after every failed flush attempt the (possibly truncated) batch is
requeued in front of the records that arrived during the network call:
the new queue is a suffix of the old batch (order preserved, truncated by
the oldest half-plus-one exactly when the serialized size exceeds the cap)
followed by the arrivals in their own order. -/
theorem failed_flush_merges_batch_in_front (live : SenderLive)
    (warned : WarnedSet) (cap : ℤ) (arrivals : List Rec) (closeDuring : Bool) :
    ∃ kept : List Rec,
      kept.IsSuffix live.queue ∧
      kept = (if (bodyBytes live.queue : ℤ) > cap then
        live.queue.drop (live.queue.length / 2 + 1) else live.queue) ∧
      (doPost live warned cap false arrivals closeDuring).1.queue =
        kept ++ arrivals := by
  refine ⟨_, ?_, rfl, ?_⟩
  · by_cases hc : (bodyBytes live.queue : ℤ) > cap
    · rw [if_pos hc]
      exact List.drop_suffix _ _
    · rw [if_neg hc]
  · rw [doPost_queue_on_failure]
    rfl

/-- Claim C7: a keepalive is appended by a worker wake cycle exactly when the
queue is empty and the elapsed time since the last send exceeds the
keepalive interval; it is a single-field record carrying the nanosecond
timestamp as a string, and at most one record is appended per cycle. -/
theorem keepalive_appended_iff (live : SenderLive) (now keepalive : ℚ) :
    (keepaliveStep live now keepalive).queue =
      live.queue ++
        (if live.queue.isEmpty && decide (now - live.last_send > keepalive)
         then [[("keepalive", PyVal.pstr (toString (now * 1000000000)))]]
         else []) ∧
    (keepaliveStep live now keepalive).queue.length ≤ live.queue.length + 1 := by
  constructor
  · rw [keepaliveStep]
    by_cases hc : isTimeForKeepalive live.queue (now - live.last_send) keepalive = true
    · rw [if_pos hc]
      rw [isTimeForKeepalive] at hc
      simp [hc, keepaliveRecord]
    · rw [if_neg hc]
      rw [isTimeForKeepalive] at hc
      simp only [Bool.not_eq_true] at hc
      simp [hc]
  · rw [keepaliveStep]
    by_cases hc : isTimeForKeepalive live.queue (now - live.last_send) keepalive = true
    · rw [if_pos hc]
      simp
    · rw [if_neg hc]
      simp

theorem encodeRecord_single (k : String) (n : ℤ) :
    encodeRecord [(k, .pint n)] =
      "\x7b" ++ jsonQuote k ++ ": " ++ toString n ++ "\x7d" := by
  simp [encodeRecord, dumps, sortPairsKV, List.insertionSort, List.orderedInsert,
    dumpsPairs, String.intercalate, String.intercalate.go]
  apply String.ext
  simp [String.data_append, List.append_assoc]

theorem encodeRecord_rSmall : encodeRecord rSmall = "\x7b\"a\": 1\x7d" :=
  (encodeRecord_single "a" 1).trans (by decide)

theorem encodeRecord_rBig :
    encodeRecord rBig = "\x7b\"kkkkkkkkkkkkkkkkkkkk\": 1\x7d" :=
  (encodeRecord_single "kkkkkkkkkkkkkkkkkkkk" 1).trans (by decide)

theorem bodyBytes_three : bodyBytes [rSmall, rSmall, rBig] = 46 := by
  rw [bodyBytes]
  simp only [List.map_cons, List.map_nil, encodeRecord_rSmall, encodeRecord_rBig]
  decide

theorem bodyBytes_big : bodyBytes [rBig] = 28 := by
  rw [bodyBytes]
  simp only [List.map_cons, List.map_nil, encodeRecord_rBig]
  decide

/-- Counterexample to claim C3: with cap 16 and the 46-byte batch
`[rSmall, rSmall, rBig]`, the failed flush drops the oldest two records as
claimed, but the retained backlog `[rBig]` still serializes to 28 bytes —
more than the cap — refuting the claim that the retained backlog size never
exceeds the configured cap. -/
theorem backlog_cap_can_be_exceeded :
    MAX_BACKLOG_SAVE 16 = 16 ∧
    (bodyBytes liveCex.queue : ℤ) > MAX_BACKLOG_SAVE 16 ∧
    (doPost liveCex [] (MAX_BACKLOG_SAVE 16) false [] false).1.queue = [rBig] ∧
    (bodyBytes [rBig] : ℤ) > MAX_BACKLOG_SAVE 16 := by
  have hq : liveCex.queue = [rSmall, rSmall, rBig] := rfl
  refine ⟨by decide, ?_, ?_, ?_⟩
  · rw [hq, bodyBytes_three]
    decide
  · rw [doPost_queue_on_failure, requeueAfterFailure, hq, bodyBytes_three,
      if_pos (by decide : ((46 : ℕ) : ℤ) > MAX_BACKLOG_SAVE 16)]
    rfl
  · rw [bodyBytes_big]
    decide

/-- Claim C3 (amended): after every failed flush attempt whose serialized batch
size exceeds the configured cap, exactly the oldest `n/2 + 1` of the
batch's `n` records are discarded before the remainder is requeued ahead
of the arrivals; the retained backlog may still exceed the cap. -/
theorem backlog_truncation_drops_oldest_half (live : SenderLive)
    (warned : WarnedSet) (cap : ℤ) (arrivals : List Rec) (closeDuring : Bool)
    (hover : (bodyBytes live.queue : ℤ) > cap) :
    (doPost live warned cap false arrivals closeDuring).1.queue =
      live.queue.drop (live.queue.length / 2 + 1) ++ arrivals := by
  rw [doPost_queue_on_failure, requeueAfterFailure, if_pos hover]

/-- Witness for the amended C3 at the concrete 46-byte batch. -/
theorem backlog_truncation_witness :
    (bodyBytes liveCex.queue : ℤ) > MAX_BACKLOG_SAVE 16 ∧
    (doPost liveCex [] (MAX_BACKLOG_SAVE 16) false [] false).1.queue =
      liveCex.queue.drop (liveCex.queue.length / 2 + 1) ++ [] := by
  have hover : (bodyBytes liveCex.queue : ℤ) > MAX_BACKLOG_SAVE 16 := by
    have hq : liveCex.queue = [rSmall, rSmall, rBig] := rfl
    rw [hq, bodyBytes_three]
    decide
  exact ⟨hover,
    backlog_truncation_drops_oldest_half liveCex [] (MAX_BACKLOG_SAVE 16) [] false hover⟩

theorem doPost_flag (live : SenderLive) (warned : WarnedSet) (cap : ℤ)
    (netOk : Bool) (arrivals : List Rec) (closeDuring : Bool) :
    (doPost live warned cap netOk arrivals closeDuring).2.2 = netOk := by
  cases netOk <;> simp [doPost]

theorem doPost_sending (live : SenderLive) (warned : WarnedSet) (cap : ℤ)
    (netOk : Bool) (arrivals : List Rec) (closeDuring : Bool) :
    (doPost live warned cap netOk arrivals closeDuring).1.sending =
      (if closeDuring then none else live.sending) := by
  cases netOk <;> simp [doPost]

theorem doPost_queue_on_success (live : SenderLive) (warned : WarnedSet)
    (cap : ℤ) (arrivals : List Rec) (closeDuring : Bool) :
    (doPost live warned cap true arrivals closeDuring).1.queue = arrivals := by
  simp [doPost]

theorem keepaliveStep_sending (live : SenderLive) (now keepalive : ℚ) :
    (keepaliveStep live now keepalive).sending = live.sending := by
  rw [keepaliveStep]
  split <;> rfl

/-- Claim C6: each worker iteration decides continuation as follows: on a flush
failure while closing (including a `close()` that landed during the POST)
the loop terminates; on a flush failure while running the queue holds the
merged-back batch and the loop continues; otherwise the loop continues
exactly while the sender is running or the queue is non-empty. -/
theorem worker_iteration_continuation (live : SenderLive) (warned : WarnedSet)
    (keepalive batchDelay : ℚ) (cap : ℤ) (now now2 : ℚ) (netOk : Bool)
    (arrivals : List Rec) (closeDuring : Bool) :
    (maybeSendOne live warned keepalive batchDelay cap now now2 netOk arrivals
        closeDuring).2.2 =
      (if isTimeToPost (keepaliveStep live now keepalive).queue
            (keepaliveStep live now keepalive).sending
            (now - live.last_send) batchDelay
          && !netOk && (closeDuring || live.sending.isNone)
       then false
       else ((maybeSendOne live warned keepalive batchDelay cap now now2 netOk
          arrivals closeDuring).1.sending.isSome ||
        !(maybeSendOne live warned keepalive batchDelay cap now now2 netOk
          arrivals closeDuring).1.queue.isEmpty)) ∧
    (maybeSendOne live warned keepalive batchDelay cap now now2 netOk arrivals
        closeDuring).1.queue =
      (if isTimeToPost (keepaliveStep live now keepalive).queue
          (keepaliveStep live now keepalive).sending
          (now - live.last_send) batchDelay
       then (if netOk then arrivals
         else requeueAfterFailure (keepaliveStep live now keepalive).queue cap arrivals)
       else (keepaliveStep live now keepalive).queue) := by
  have hflag := doPost_flag (keepaliveStep live now keepalive) warned cap netOk
    arrivals closeDuring
  have hsending := doPost_sending (keepaliveStep live now keepalive) warned cap netOk
    arrivals closeDuring
  have hqfail := doPost_queue_on_failure (keepaliveStep live now keepalive) warned cap
    arrivals closeDuring
  have hqsucc := doPost_queue_on_success (keepaliveStep live now keepalive) warned cap
    arrivals closeDuring
  have hks := keepaliveStep_sending live now keepalive
  simp only [maybeSendOne]
  by_cases hpost : isTimeToPost (keepaliveStep live now keepalive).queue
      (keepaliveStep live now keepalive).sending (now - live.last_send) batchDelay = true
  · rw [if_pos hpost, if_pos hpost, hpost]
    simp only [Bool.true_and]
    cases netOk with
    | true =>
      rw [hflag]
      simp only [if_pos rfl, Bool.not_true, Bool.false_and, Bool.false_eq_true,
        if_neg Bool.false_ne_true, keepGoing, hqsucc]
      exact ⟨rfl, rfl⟩
    | false =>
      rw [hflag]
      simp only [Bool.false_eq_true, if_neg Bool.false_ne_true, Bool.not_false,
        Bool.true_and]
      have hnone : (doPost (keepaliveStep live now keepalive) warned cap false
          arrivals closeDuring).1.sending.isNone =
          (closeDuring || live.sending.isNone) := by
        rw [hsending, hks]
        cases closeDuring <;> simp
      by_cases hcd : (closeDuring || live.sending.isNone) = true
      · rw [hcd, hnone.trans hcd]
        simp only [if_pos rfl]
        exact ⟨rfl, hqfail⟩
      · have hcd2 : (closeDuring || live.sending.isNone) = false :=
          Bool.eq_false_iff.mpr hcd
        rw [hcd2, hnone.trans hcd2]
        simp only [Bool.false_eq_true, if_neg Bool.false_ne_true, keepGoing]
        exact ⟨rfl, hqfail⟩
  · have hp2 : isTimeToPost (keepaliveStep live now keepalive).queue
        (keepaliveStep live now keepalive).sending (now - live.last_send) batchDelay
        = false := by
      simpa using hpost
    rw [if_neg hpost, hp2]
    simp [keepGoing]

theorem contains_merge0 (a : Rec) (k : String) :
    containsKey (mergeInto [] a) k = containsKey a k := by
  rw [contains_mergeInto, containsKey_nil, Bool.false_or]

theorem lookup_merge0 (a : Rec) (k : String) :
    lookupRec (mergeInto [] a) k = lookupRec a k := by
  rw [lookup_mergeInto, containsKey_nil]
  simp

/-- Claim C5: on a running sender, `enqueue` appends exactly one record derived
from the caller record: metadata fields never override caller fields; with
a configured nesting key the metadata (timestamp included) appears only
under that key; with the key explicitly empty the record is appended
unchanged; otherwise the metadata and a nanosecond timestamp are merged
flat. -/
theorem enqueue_enriches (cfg : SenderConfig) (live : SenderLive) (data : Rec)
    (now : ℚ) (hrun : live.sending = some ()) :
    ∃ r : Rec,
      enqueue (.full cfg live) data now =
        .ok (.full cfg { live with queue := live.queue ++ [r] }) ∧
      (∀ k, containsKey data k = true → lookupRec r k = lookupRec data k) ∧
      (∀ mk, cfg.metadata_key = some mk → mk ≠ "" →
        (∀ k, containsKey r k = true → containsKey data k = true ∨ k = mk) ∧
        (containsKey data mk = false →
          lookupRec r mk = some (.pdict (merge [live.metadata,
            [("timestamp", .pstr (enqueueTimestamp now))]])))) ∧
      (cfg.metadata_key = none →
        (∀ k, containsKey r k = true →
          containsKey data k = true ∨ containsKey live.metadata k = true ∨
            k = "timestamp") ∧
        (containsKey data "timestamp" = false →
          containsKey live.metadata "timestamp" = false →
          lookupRec r "timestamp" = some (.pstr (enqueueTimestamp now)))) ∧
      (cfg.metadata_key = some "" → r = data) := by
  rcases live with ⟨url, metadata, queue, last_send, sending⟩
  simp only at hrun
  subst hrun
  cases hmk : cfg.metadata_key with
  | none =>
    refine ⟨merge [data, metadata, [("timestamp", .pstr (enqueueTimestamp now))]],
      ?_, ?_, ?_, ?_, ?_⟩
    · simp [enqueue, hmk]
    · intro k hk
      rw [merge, List.foldl_cons, List.foldl_cons, List.foldl_cons, List.foldl_nil,
        lookup_mergeInto, if_pos (by rw [contains_mergeInto, contains_merge0, hk]; simp),
        lookup_mergeInto, if_pos (by rw [contains_merge0]; exact hk), lookup_merge0]
    · intro mk h
      exact Option.noConfusion h
    · intro _
      constructor
      · intro k hk
        rw [merge, List.foldl_cons, List.foldl_cons, List.foldl_cons, List.foldl_nil,
          contains_mergeInto, contains_mergeInto, contains_merge0, containsKey_cons,
          containsKey_nil] at hk
        simp only [Bool.or_eq_true] at hk
        rcases hk with (ha | hb) | (hc | hd)
        · exact Or.inl ha
        · exact Or.inr (Or.inl hb)
        · exact Or.inr (Or.inr (eq_of_beq hc).symm)
        · cases hd
      · intro hd hm
        rw [merge, List.foldl_cons, List.foldl_cons, List.foldl_cons, List.foldl_nil,
          lookup_mergeInto,
          if_neg (by rw [contains_mergeInto, contains_merge0, hd, hm]; simp)]
        simp [lookupRec, List.find?]
    · intro h
      exact Option.noConfusion h
  | some mk =>
    by_cases hmke : mk = ""
    · subst hmke
      refine ⟨data, ?_, ?_, ?_, ?_, ?_⟩
      · simp [enqueue, hmk, (by decide : ("" : String).isEmpty = true)]
      · intro k _
        rfl
      · intro mk2 h he
        injection h with h2
        exact absurd h2.symm he
      · intro h
        exact Option.noConfusion h
      · intro _
        rfl
    · have hne : mk.isEmpty = false := isEmpty_false_of_ne mk hmke
      refine ⟨merge [data, [(mk, .pdict (merge [metadata,
        [("timestamp", .pstr (enqueueTimestamp now))]]))]], ?_, ?_, ?_, ?_, ?_⟩
      · simp [enqueue, hmk, hne]
      · intro k hk
        rw [merge, List.foldl_cons, List.foldl_cons, List.foldl_nil,
          lookup_mergeInto, if_pos (by rw [contains_merge0]; exact hk), lookup_merge0]
      · intro mk2 h _
        injection h with h2
        subst h2
        constructor
        · intro k hk
          rw [merge, List.foldl_cons, List.foldl_cons, List.foldl_nil,
            contains_mergeInto, contains_merge0, containsKey_cons,
            containsKey_nil] at hk
          simp only [Bool.or_eq_true] at hk
          rcases hk with h1 | (ha | hb)
          · exact Or.inl h1
          · exact Or.inr (eq_of_beq ha).symm
          · cases hb
        · intro hd
          rw [merge, List.foldl_cons, List.foldl_cons, List.foldl_nil,
            lookup_mergeInto, if_neg (by rw [contains_merge0, hd]; simp)]
          simp [lookupRec, List.find?]
      · intro h
        exact Option.noConfusion h
      · intro h
        injection h with h2
        exact absurd h2 hmke

theorem charListLE_total (as bs : List Char) :
    charListLE as bs = true ∨ charListLE bs as = true := by
  induction as generalizing bs with
  | nil => exact Or.inl rfl
  | cons a as2 ih =>
    cases bs with
    | nil => exact Or.inr rfl
    | cons b bs2 =>
      by_cases h1 : a.toNat < b.toNat
      · exact Or.inl (by simp [charListLE, h1])
      · by_cases h2 : b.toNat < a.toNat
        · exact Or.inr (by simp [charListLE, h2])
        · rcases ih bs2 with h | h
          · exact Or.inl (by simp [charListLE, h1, h2, h])
          · exact Or.inr (by simp [charListLE, h1, h2, h])

theorem charListLE_head (a b : Char) (as bs : List Char)
    (h : charListLE (a :: as) (b :: bs) = true) : a.toNat ≤ b.toNat := by
  simp only [charListLE] at h
  by_cases h1 : a.toNat < b.toNat
  · omega
  · by_cases h2 : b.toNat < a.toNat
    · rw [if_neg h1, if_pos h2] at h
      cases h
    · omega

theorem charListLE_tail (a b : Char) (as bs : List Char)
    (h : charListLE (a :: as) (b :: bs) = true) (he : a.toNat = b.toNat) :
    charListLE as bs = true := by
  simp only [charListLE] at h
  rw [if_neg (by omega), if_neg (by omega)] at h
  exact h

theorem charListLE_trans (as bs cs : List Char) (h1 : charListLE as bs = true)
    (h2 : charListLE bs cs = true) : charListLE as cs = true := by
  induction as generalizing bs cs with
  | nil => rfl
  | cons a as2 ih =>
    cases bs with
    | nil => exact absurd h1 (by simp [charListLE])
    | cons b bs2 =>
      cases cs with
      | nil => exact absurd h2 (by simp [charListLE])
      | cons c cs2 =>
        have hab := charListLE_head a b as2 bs2 h1
        have hbc := charListLE_head b c bs2 cs2 h2
        simp only [charListLE]
        by_cases hac : a.toNat < c.toNat
        · rw [if_pos hac]
        · rw [if_neg hac, if_neg (by omega)]
          exact ih bs2 cs2 (charListLE_tail _ _ _ _ h1 (by omega))
            (charListLE_tail _ _ _ _ h2 (by omega))

theorem sortPairsKV_idem (l : List (String × PyVal)) :
    sortPairsKV (sortPairsKV l) = sortPairsKV l := by
  haveI h1 : IsTotal (String × PyVal) (fun a b => keyLE a b = true) :=
    ⟨fun a b => charListLE_total a.1.toList b.1.toList⟩
  haveI h2 : IsTrans (String × PyVal) (fun a b => keyLE a b = true) :=
    ⟨fun a b c ha hb => charListLE_trans _ _ _ ha hb⟩
  exact List.Sorted.insertionSort_eq (List.sorted_insertionSort _ l)

theorem contains_true_of_mem (w : List String) (e : String) (h : e ∈ w) :
    w.contains e = true := by
  simp [List.contains, List.elem_eq_mem, h]

theorem contains_false_of_not_mem (w : List String) (e : String) (h : e ∉ w) :
    w.contains e = false := by
  simp [List.contains, List.elem_eq_mem, h]

theorem maybeJsonRun_fresh (objs : List PyVal) (w : WarnedSet) :
    (maybeJsonRun w objs).2.Nodup ∧
      ∀ e ∈ (maybeJsonRun w objs).2, e ∉ w := by
  induction objs generalizing w with
  | nil => exact ⟨List.nodup_nil, by intro e he; cases he⟩
  | cons obj rest ih =>
    rw [maybeJsonRun, maybe_json_eq]
    cases hd : dumps obj with
    | ok s =>
      simpa using ih w
    | error e =>
      by_cases hw : e ∈ w
      · have hwc : w.contains e = true := contains_true_of_mem w e hw
        simp only [hwc, if_true]
        simpa using ih w
      · have hwc : w.contains e = false := contains_false_of_not_mem w e hw
        obtain ⟨hnd, hfr⟩ := ih (w ++ [e])
        have hfre : e ∉ (maybeJsonRun (w ++ [e]) rest).2 := by
          intro hmem
          exact hfr e hmem (by simp)
        have hfrw : ∀ x ∈ (maybeJsonRun (w ++ [e]) rest).2, x ∉ w := by
          intro x hx hxw
          exact hfr x hx (by simp [hxw])
        simp only [hwc, Bool.false_eq_true, if_false]
        constructor
        · simpa using ⟨hfre, hnd⟩
        · intro x hx
          rcases List.mem_cons.mp (by simpa using hx) with h1 | h2
          · subst h1
            exact hw
          · exact hfrw x h2

/-- Claim C9: the encoder is total: `maybe_json` always returns a line — the
canonical sorted-keys serialization on success, and on failure the fallback
document carrying the string form and the error under reserved keys —
serialization is insensitive to dict key order, and over any process run at
most one warning is printed per distinct error message. -/
theorem encoder_total_sorted_warns_once (w : WarnedSet) (obj : PyVal)
    (kvs : List (String × PyVal)) (w0 : WarnedSet) (objs : List PyVal) :
    maybe_json w obj = .ok (match dumps obj with
      | .ok s => (s, w, none)
      | .error e => (fallbackDoc obj e,
          if w.contains e then w else w ++ [e],
          if w.contains e then none else some e)) ∧
    dumps (.pdict kvs) = dumps (.pdict (sortPairsKV kvs)) ∧
    (maybeJsonRun w0 objs).2.Nodup ∧
    (maybeJsonRun w0 objs).2.all (fun e => !w0.contains e) = true := by
  refine ⟨maybe_json_eq w obj, ?_, (maybeJsonRun_fresh objs w0).1, ?_⟩
  · simp only [dumps]
    rw [sortPairsKV_idem]
  · rw [List.all_eq_true]
    intro e he
    have hfr := (maybeJsonRun_fresh objs w0).2 e he
    simp only [contains_false_of_not_mem w0 e hfr, Bool.not_false]

/-- Witness for C5: a running sender with nesting key `meta`, a caller
record that already sets `hostname`, enqueued at time 1. -/
theorem enqueue_enriches_witness :
    (SenderLive.mk "u" [("hostname", .pstr "h0")] [] 0 (some ())).sending
        = some () ∧
    (∃ r : Rec,
      enqueue (.full
          { host := some "x", customerid := some "1", authtoken := some "t",
            metadata_key := some "meta", accept_no_config := false,
            log_sends := false }
          (SenderLive.mk "u" [("hostname", .pstr "h0")] [] 0 (some ())))
          [("hostname", .pstr "mine")] 1 =
        .ok (.full
          { host := some "x", customerid := some "1", authtoken := some "t",
            metadata_key := some "meta", accept_no_config := false,
            log_sends := false }
          { SenderLive.mk "u" [("hostname", .pstr "h0")] [] 0 (some ()) with
              queue := [] ++ [r] }) ∧
      (∀ k, containsKey [("hostname", .pstr "mine")] k = true →
        lookupRec r k = lookupRec [("hostname", .pstr "mine")] k) ∧
      (∀ mk, (some "meta" : Option String) = some mk → mk ≠ "" →
        (∀ k, containsKey r k = true →
          containsKey [("hostname", .pstr "mine")] k = true ∨ k = mk) ∧
        (containsKey [("hostname", .pstr "mine")] mk = false →
          lookupRec r mk = some (.pdict (merge [[("hostname", .pstr "h0")],
            [("timestamp", .pstr (enqueueTimestamp 1))]])))) ∧
      ((some "meta" : Option String) = none →
        (∀ k, containsKey r k = true →
          containsKey [("hostname", .pstr "mine")] k = true ∨
            containsKey [("hostname", .pstr "h0")] k = true ∨ k = "timestamp") ∧
        (containsKey [("hostname", .pstr "mine")] "timestamp" = false →
          containsKey [("hostname", .pstr "h0")] "timestamp" = false →
          lookupRec r "timestamp" = some (.pstr (enqueueTimestamp 1)))) ∧
      ((some "meta" : Option String) = some "" → r = [("hostname", .pstr "mine")])) :=
  ⟨rfl, enqueue_enriches
    { host := some "x", customerid := some "1", authtoken := some "t",
      metadata_key := some "meta", accept_no_config := false, log_sends := false }
    (SenderLive.mk "u" [("hostname", .pstr "h0")] [] 0 (some ()))
    [("hostname", .pstr "mine")] 1 rfl⟩

end Observe
